import Mathlib

/-!
Verification of the hiepita repository's temperature-series composition code
(`averagetemplist.py`, `getamedas.py`) against its natural-language
specification.  Python `datetime.date` values are embedded as a `Date`
structure over `ℕ` with a day-ordinal function `Date.toOrd`; tables are
lists of lists with `Option ℚ` cells (`none` models NaN / missing).
-/

/-- Gregorian leap-year test, as used by Python's `datetime` module. -/
def isLeap (y : ℕ) : Bool := (y % 4 == 0 && y % 100 != 0) || y % 400 == 0

/-- Number of days in month `m` of year `y` (Gregorian calendar). -/
def daysInMonth (y m : ℕ) : ℕ :=
  if m = 2 then (if isLeap y then 29 else 28)
  else if m = 4 ∨ m = 6 ∨ m = 9 ∨ m = 11 then 30
  else 31

/-- Days of year `y` that precede month `m`, ignoring the leap day. -/
def daysBeforeMonthBase (m : ℕ) : ℕ :=
  match m with
  | 1 => 0 | 2 => 31 | 3 => 59 | 4 => 90 | 5 => 120 | 6 => 151
  | 7 => 181 | 8 => 212 | 9 => 243 | 10 => 273 | 11 => 304 | 12 => 334
  | _ => 0

/-- Days of year `y` that precede month `m`. -/
def daysBeforeMonth (y m : ℕ) : ℕ :=
  daysBeforeMonthBase m + (if 3 ≤ m ∧ m ≤ 12 ∧ isLeap y then 1 else 0)

/-- Number of leap years in `[1, y]`. -/
def leapsBefore (y : ℕ) : ℕ := y / 4 - y / 100 + y / 400

/-- Number of days in years `[1, y-1]`. -/
def daysBeforeYear (y : ℕ) : ℕ := 365 * (y - 1) + leapsBefore (y - 1)

/-- A calendar date, mirroring Python's `datetime.date` fields. -/
structure Date where
  year : ℕ
  month : ℕ
  day : ℕ
deriving DecidableEq

/-- Validity of the field ranges, as enforced by the `datetime.date`
constructor (year 0 is excluded as Python does). -/
def Date.Valid (d : Date) : Prop :=
  1 ≤ d.year ∧ 1 ≤ d.month ∧ d.month ≤ 12 ∧ 1 ≤ d.day ∧
    d.day ≤ daysInMonth d.year d.month

instance (d : Date) : Decidable d.Valid := by
  unfold Date.Valid; infer_instance

/-- Day ordinal of a date (1 = January 1 of year 1), i.e. Python's
`date.toordinal`. -/
def Date.toOrd (d : Date) : ℕ :=
  daysBeforeYear d.year + daysBeforeMonth d.year d.month + d.day

/-- The calendar day after `d`. -/
def Date.next (d : Date) : Date :=
  if d.day < daysInMonth d.year d.month then ⟨d.year, d.month, d.day + 1⟩
  else if d.month < 12 then ⟨d.year, d.month + 1, 1⟩
  else ⟨d.year + 1, 1, 1⟩

/-- The calendar day before `d`. -/
def Date.prev (d : Date) : Date :=
  if 1 < d.day then ⟨d.year, d.month, d.day - 1⟩
  else if 1 < d.month then ⟨d.year, d.month - 1, daysInMonth d.year (d.month - 1)⟩
  else ⟨d.year - 1, 12, 31⟩

/-- `d + timedelta(days=n)` for a `datetime.date`. -/
def Date.addDays (d : Date) : ℕ → Date
  | 0 => d
  | n + 1 => (d.addDays n).next

/-- `d - timedelta(days=n)` for a `datetime.date`. -/
def Date.subDays (d : Date) : ℕ → Date
  | 0 => d
  | n + 1 => (d.subDays n).prev

/-- `(a - b).days` on Python dates. -/
def dateDiff (a b : Date) : ℤ := (a.toOrd : ℤ) - (b.toOrd : ℤ)

/-! ### Numeric helpers: numpy rounding (`np.round`, half-to-even) over ℚ -/

/-- Round to the nearest integer, ties to even (numpy `rint` policy). -/
def rintQ (q : ℚ) : ℤ :=
  if q - ⌊q⌋ < 1 / 2 then ⌊q⌋
  else if 1 / 2 < q - ⌊q⌋ then ⌊q⌋ + 1
  else if ⌊q⌋ % 2 = 0 then ⌊q⌋ else ⌊q⌋ + 1

/-- `np.round(q, decimals=1)` over ℚ. -/
def round1 (q : ℚ) : ℚ := (rintQ (10 * q) : ℚ) / 10

/-! ### `getamedas.py`: cleaning, pentads, averaging, window adjustment -/

/-- Day-of-month to pentad index (`hanjun` in `getamedas.py`). -/
def hanjun (day : ℕ) : ℕ := if day ≤ 30 then (day - 1) / 5 + 1 else 6

/-- Alphabet of raw scraped cells handled by `clean_df`: a parsable number,
the missing markers `"//"` and `"#"`, the no-precipitation marker `"--"`,
a number carrying a trailing annotation marker (`")"` or `" ]"`), and any
other non-numeric text. -/
inductive Cell where
  | num (q : ℚ)
  | slashes
  | hash
  | dashes
  | annotated (q : ℚ)
  | text
deriving DecidableEq

/-- Cell-level model of the `clean_df` pipeline in `getamedas.py`:
`replace(["//", "#"], nan)`, then `replace("--", 0.0)`, then the regex
strip of trailing `")"` / `" ]"` markers, then
`to_numeric(errors="coerce")` mapping anything still unparsed to NaN. -/
def clean_cell : Cell → Option ℚ
  | .num q => some q
  | .slashes => none
  | .hash => none
  | .dashes => some 0
  | .annotated q => some q
  | .text => none

/-- `clean_df` applied to a whole table. -/
def clean_df (df : List (List Cell)) : List (List (Option ℚ)) :=
  df.map fun row => row.map clean_cell

/-- Elementwise `np.round(np.nanmean(stack, axis=0), 1)` for one cell
position: the mean of the non-missing entries, rounded to one decimal,
or missing when every entry is missing. -/
def cellMean (l : List (Option ℚ)) : Option ℚ :=
  let v := l.filterMap id
  if v = [] then none else some (round1 (v.sum / (v.length : ℚ)))

/-- `mean_df` in `getamedas.py`: stack the year tables and average
elementwise with `np.nanmean(..., axis=0)`, then round to one decimal.
The output shape is the common shape of the stacked tables (the shape of
the first one). -/
def mean_df (dfl : List (List (List (Option ℚ)))) : List (List (Option ℚ)) :=
  match dfl with
  | [] => []
  | t0 :: _ =>
    (List.range t0.length).map fun i =>
      (List.range ((t0.getD i []).length)).map fun j =>
        cellMean (dfl.map fun t => (t.getD i []).getD j none)

/-- `mean_df` restricted to the mean-temperature column, as used by the
daily composition path (`get_amedas_data` keeps a whole table; the
callers in `averagetemplist.py` read one column of it). -/
def mean_column (dfl : List (List (Option ℚ))) : List (Option ℚ) :=
  match dfl with
  | [] => []
  | c0 :: _ =>
    (List.range c0.length).map fun i =>
      cellMean (dfl.map fun c => c.getD i none)

/-- Rows of the scraped month page kept by `get_1month_df`: the page has
one row per calendar day, and for February the row of day 29 is dropped
(`df.drop(index=[28], errors="ignore")`). -/
def page_rows (y m : ℕ) : ℕ := if m = 2 then 28 else daysInMonth y m

/-- Mean-temperature column of one month page after extraction and
cleaning; `obs y m day` is the (possibly missing) scraped value. -/
def month_page (obs : ℕ → ℕ → ℕ → Option ℚ) (y m : ℕ) : List (Option ℚ) :=
  (List.range (page_rows y m)).map fun i => obs y m (i + 1)

/-- `get_months_df` in `getamedas.py`: concatenate the month pages from
the begin month through the end month (crossing into `year + 1` when the
window spans a year boundary) and slice rows
`iloc[b.day - 1 : b.day + (e - b).days]`. -/
def get_months_df (obs : ℕ → ℕ → ℕ → Option ℚ) (b e : Date) (year : ℕ) :
    List (Option ℚ) :=
  let df :=
    if b.year = e.year then
      ((List.range (e.month + 1 - b.month)).map fun i =>
        month_page obs year (b.month + i)).flatten
    else
      (((List.range (13 - b.month)).map fun i =>
        month_page obs year (b.month + i)) ++
       ((List.range e.month).map fun i =>
        month_page obs (year + 1) (1 + i))).flatten
  let days := ((e.toOrd : ℤ) - (b.toOrd : ℤ)).toNat
  (df.drop (b.day - 1)).take ((b.day + days) - (b.day - 1))

/-- First reassignment in `date_adjust`:
`e_date if e_date < today else today - timedelta(days=1)`. -/
def da_e1 (today e : Date) : Date :=
  if e.toOrd < today.toOrd then e else today.subDays 1

/-- Second reassignment in `date_adjust`:
`b_date if b_date < e_date else e_date - timedelta(days=1)`. -/
def da_b1 (today b e : Date) : Date :=
  if b.toOrd < (da_e1 today e).toOrd then b else (da_e1 today e).subDays 1

/-- Third reassignment in `date_adjust`: clamp windows of 367 days or
more back to 364 days. -/
def da_e2 (today b e : Date) : Date :=
  if ((da_e1 today e).toOrd : ℤ) - ((da_b1 today b e).toOrd : ℤ) < 367 then
    da_e1 today e
  else (da_b1 today b e).addDays 364

/-- `d_days` in the pentad branch of `date_adjust`:
`today.day % 5 if today.day % 5 != 0 else 5`. -/
def da_ddays (today : Date) : ℕ :=
  if today.day % 5 ≠ 0 then today.day % 5 else 5

/-- End date chosen by the pentad branch of `date_adjust`. -/
def da_e3 (today : Date) : Date := today.subDays (da_ddays today)

/-- Begin date chosen by the pentad branch of `date_adjust`. -/
def da_b2 (today b e : Date) : Date :=
  if (da_b1 today b e).toOrd < (da_e3 today).toOrd then da_b1 today b e
  else (da_e3 today).subDays 1

/-- `date_adjust` in `getamedas.py`. -/
def date_adjust (today b e : Date) (is_daily : Bool) : Date × Date :=
  if is_daily = false ∧ (today.toOrd : ℤ) - ((da_e2 today b e).toOrd : ℤ) < 5 then
    (da_b2 today b e, da_e3 today)
  else
    (da_b1 today b e, da_e2 today b e)

/-- Zero-pad a number to two digits (`strftime` fields `%m`, `%d`). -/
def pad2 (n : ℕ) : String := if n < 10 then "0" ++ toString n else toString n

/-- Zero-pad a number to four digits (`strftime` field `%Y`). -/
def pad4 (n : ℕ) : String :=
  if n < 10 then "000" ++ toString n
  else if n < 100 then "00" ++ toString n
  else if n < 1000 then "0" ++ toString n
  else toString n

/-- `strftime("%m/%d")`, used by `date_index` in `getamedas.py`. -/
def Date.fmtMD (d : Date) : String := pad2 d.month ++ "/" ++ pad2 d.day

/-- `strftime("%Y/%m/%d")`, used for the series index in
`averagetemplist.py`. -/
def Date.fmtYMD (d : Date) : String :=
  pad4 d.year ++ "/" ++ pad2 d.month ++ "/" ++ pad2 d.day

/-- `date_index` in `getamedas.py`: one `"%m/%d"` label per day of
`[b, e]`. -/
def date_index (b e : Date) : List String :=
  (List.range (e.toOrd + 1 - b.toOrd)).map fun i => (b.addDays i).fmtMD

/-- Daily branch of `get_amedas_data` in `getamedas.py`: adjust the
window, fetch `years` stacked yearly tables, average them with `mean_df`
(`np.stack` fails on an empty list or unequal row counts), and attach the
`date_index` labels (pandas fails if the label count differs from the row
count).  Errors model raised exceptions. -/
def get_amedas_data (obs : ℕ → ℕ → ℕ → Option ℚ) (today b0 e0 : Date)
    (years : ℕ) : Except String (List (Option ℚ)) :=
  let b := (date_adjust today b0 e0 true).1
  let e := (date_adjust today b0 e0 true).2
  let dfl := (List.range years).map fun i =>
    get_months_df obs b e (b.year + 1 - years + i)
  if dfl = [] then .error "stack: need at least one array"
  else if dfl.all fun c => c.length = (dfl.headD []).length then
    if (mean_column dfl).length = (date_index b e).length then
      .ok (mean_column dfl)
    else .error "index length mismatch"
  else .error "stack: shape mismatch"

/-! ### `averagetemplist.py`: the three segment sources and the composer -/

/-- `past_temp_list`: mean-temperature column for a single-year window,
via `get_amedas_data(area, b, e, 1, True)`.  The station's scraped data
is abstracted by the oracle `obs`. -/
def past_temp_list (obs : ℕ → ℕ → ℕ → Option ℚ) (today b e : Date) :
    Except String (List (Option ℚ)) :=
  get_amedas_data obs today b e 1

/-- `forecast_temp_list`: the scraped daily max/min forecasts are paired,
averaged to a daily mean, and sliced with `ftl[b_day - 1 : e_day]`.
`max_tmp_l`/`min_tmp_l` abstract the scraped forecast page. -/
def forecast_temp_list (max_tmp_l min_tmp_l : List ℤ) (b_day e_day : ℤ) :
    List ℚ :=
  let ftl := (max_tmp_l.zip min_tmp_l).map fun t => ((t.1 : ℚ) + (t.2 : ℚ)) / 2
  (ftl.drop (b_day - 1).toNat).take ((e_day - (b_day - 1)).toNat)

/-- The checked `datetime.date(y, m, d)` constructor: raises `ValueError`
on an invalid combination. -/
def mkDate (y m d : ℕ) : Except String Date :=
  if Date.Valid ⟨y, m, d⟩ then .ok ⟨y, m, d⟩
  else .error "ValueError: day is out of range for month"

/-- `normal_temp_list`: shift both window bounds back one calendar year
(the `date(year - 1, month, day)` constructor can raise) and fetch
`years` years of data via `get_amedas_data`. -/
def normal_temp_list (obs : ℕ → ℕ → ℕ → Option ℚ) (today b e : Date)
    (years : ℕ) : Except String (List (Option ℚ)) := do
  let b1 ← mkDate (b.year - 1) b.month b.day
  let e1 ← mkDate (e.year - 1) e.month e.day
  get_amedas_data obs today b1 e1 years

/-- `e_date` in `ave_temp_list`: `b_date + timedelta(days=length - 1)`. -/
def e_of (b : Date) (length : ℕ) : Date := b.addDays (length - 1)

/-- `y_date` in `ave_temp_list`: `date.today() - timedelta(days=1)`. -/
def y_of (today : Date) : Date := today.subDays 1

/-- `tw_date` in `ave_temp_list`: `date.today() + timedelta(days=13)`. -/
def tw_of (today : Date) : Date := today.addDays 13

/-- `tw1_date` in `ave_temp_list`: `date.today() + timedelta(days=14)`. -/
def tw1_of (today : Date) : Date := today.addDays 14

/-- The `if/elif` chain of `ave_temp_list` that builds `temp_list`.
Forecast values are plain floats and embed into the NaN-carrying column
type via `some`. -/
def ave_temp_segments (obs : ℕ → ℕ → ℕ → Option ℚ)
    (fmax fmin : List ℤ) (today b_date : Date) (length n_years : ℕ) :
    Except String (List (Option ℚ)) :=
  if (e_of b_date length).toOrd ≤ (y_of today).toOrd then
    past_temp_list obs today b_date (e_of b_date length)
  else if b_date.toOrd ≤ (y_of today).toOrd ∧
      (e_of b_date length).toOrd ≤ (tw_of today).toOrd then do
    let p ← past_temp_list obs today b_date (y_of today)
    pure (p ++ (forecast_temp_list fmax fmin 1
      (dateDiff (e_of b_date length) (y_of today))).map some)
  else if b_date.toOrd ≤ (y_of today).toOrd ∧
      (tw_of today).toOrd < (e_of b_date length).toOrd then do
    let p ← past_temp_list obs today b_date (y_of today)
    let n ← normal_temp_list obs today (tw1_of today) (e_of b_date length) n_years
    pure (p ++ (forecast_temp_list fmax fmin 1 14).map some ++ n)
  else if (y_of today).toOrd < b_date.toOrd ∧
      b_date.toOrd ≤ (tw_of today).toOrd ∧
      (e_of b_date length).toOrd ≤ (tw_of today).toOrd then
    pure ((forecast_temp_list fmax fmin (dateDiff b_date (y_of today))
      (dateDiff (e_of b_date length) (y_of today))).map some)
  else if (y_of today).toOrd < b_date.toOrd ∧
      b_date.toOrd ≤ (tw_of today).toOrd ∧
      (tw_of today).toOrd < (e_of b_date length).toOrd then do
    let n ← normal_temp_list obs today (tw1_of today) (e_of b_date length) n_years
    pure ((forecast_temp_list fmax fmin (dateDiff b_date (y_of today)) 14).map some
      ++ n)
  else
    normal_temp_list obs today b_date (e_of b_date length) n_years

/-- `ave_temp_list`: compose the segments, then attach the
`"%Y/%m/%d"` date labels with `pd.Series(temp_list, index=date_list)`,
which raises `ValueError` when the two lengths differ. -/
def ave_temp_list (obs : ℕ → ℕ → ℕ → Option ℚ)
    (fmax fmin : List ℤ) (today b_date : Date) (length n_years : ℕ) :
    Except String (List (String × Option ℚ)) := do
  let tl ← ave_temp_segments obs fmax fmin today b_date length n_years
  let dl := (List.range length).map fun i => (b_date.addDays i).fmtYMD
  if tl.length = dl.length then pure (dl.zip tl)
  else .error "ValueError: length of values does not match length of index"

/-! ### The six composition cases, as stated in the specification -/

/-- Spec case 1: `E ≤ Y`. -/
abbrev specCase1 (today b : Date) (len : ℕ) : Prop :=
  (e_of b len).toOrd ≤ (y_of today).toOrd

/-- Spec case 2: `B ≤ Y` and `Y < E ≤ TW`. -/
abbrev specCase2 (today b : Date) (len : ℕ) : Prop :=
  b.toOrd ≤ (y_of today).toOrd ∧ (y_of today).toOrd < (e_of b len).toOrd ∧
    (e_of b len).toOrd ≤ (tw_of today).toOrd

/-- Spec case 3: `B ≤ Y` and `E > TW`. -/
abbrev specCase3 (today b : Date) (len : ℕ) : Prop :=
  b.toOrd ≤ (y_of today).toOrd ∧ (tw_of today).toOrd < (e_of b len).toOrd

/-- Spec case 4: `Y < B ≤ TW` and `E ≤ TW`. -/
abbrev specCase4 (today b : Date) (len : ℕ) : Prop :=
  (y_of today).toOrd < b.toOrd ∧ b.toOrd ≤ (tw_of today).toOrd ∧
    (e_of b len).toOrd ≤ (tw_of today).toOrd

/-- Spec case 5: `Y < B ≤ TW < E`. -/
abbrev specCase5 (today b : Date) (len : ℕ) : Prop :=
  (y_of today).toOrd < b.toOrd ∧ b.toOrd ≤ (tw_of today).toOrd ∧
    (tw_of today).toOrd < (e_of b len).toOrd

/-- Spec case 6: `B > TW`. -/
abbrev specCase6 (today b : Date) (len : ℕ) : Prop :=
  (tw_of today).toOrd < b.toOrd

/-- Whether an `Except` computation succeeded (no exception raised). -/
def isOkE {α : Type} : Except String α → Bool
  | .ok _ => true
  | .error _ => false

/-- The date is a February 29 (valid only in leap years). -/
abbrev isFeb29 (d : Date) : Prop := d.month = 2 ∧ d.day = 29

/-- Conclusion of claim C1: with `Y`, `TW` computed from today and
`E = B + (length-1)`, exactly one of the spec's six cases holds, each case
makes `ave_temp_list`'s branch chain compose exactly the tabulated
segments, a request with `E = Y` is case 1 and a request with `B = Y + 1`,
`E ≤ TW` is case 4. -/
def C1Prop (obs : ℕ → ℕ → ℕ → Option ℚ) (fmax fmin : List ℤ)
    (today b : Date) (len ny : ℕ) : Prop :=
  (specCase1 today b len ∨ specCase2 today b len ∨ specCase3 today b len ∨
    specCase4 today b len ∨ specCase5 today b len ∨ specCase6 today b len) ∧
  ¬(specCase1 today b len ∧ specCase2 today b len) ∧
  ¬(specCase1 today b len ∧ specCase3 today b len) ∧
  ¬(specCase1 today b len ∧ specCase4 today b len) ∧
  ¬(specCase1 today b len ∧ specCase5 today b len) ∧
  ¬(specCase1 today b len ∧ specCase6 today b len) ∧
  ¬(specCase2 today b len ∧ specCase3 today b len) ∧
  ¬(specCase2 today b len ∧ specCase4 today b len) ∧
  ¬(specCase2 today b len ∧ specCase5 today b len) ∧
  ¬(specCase2 today b len ∧ specCase6 today b len) ∧
  ¬(specCase3 today b len ∧ specCase4 today b len) ∧
  ¬(specCase3 today b len ∧ specCase5 today b len) ∧
  ¬(specCase3 today b len ∧ specCase6 today b len) ∧
  ¬(specCase4 today b len ∧ specCase5 today b len) ∧
  ¬(specCase4 today b len ∧ specCase6 today b len) ∧
  ¬(specCase5 today b len ∧ specCase6 today b len) ∧
  (specCase1 today b len →
    ave_temp_segments obs fmax fmin today b len ny =
      past_temp_list obs today b (e_of b len)) ∧
  (specCase2 today b len →
    ave_temp_segments obs fmax fmin today b len ny = (do
      let p ← past_temp_list obs today b (y_of today)
      pure (p ++ (forecast_temp_list fmax fmin 1
        (dateDiff (e_of b len) (y_of today))).map some))) ∧
  (specCase3 today b len →
    ave_temp_segments obs fmax fmin today b len ny = (do
      let p ← past_temp_list obs today b (y_of today)
      let n ← normal_temp_list obs today (tw1_of today) (e_of b len) ny
      pure (p ++ (forecast_temp_list fmax fmin 1 14).map some ++ n))) ∧
  (specCase4 today b len →
    ave_temp_segments obs fmax fmin today b len ny =
      pure ((forecast_temp_list fmax fmin (dateDiff b (y_of today))
        (dateDiff (e_of b len) (y_of today))).map some)) ∧
  (specCase5 today b len →
    ave_temp_segments obs fmax fmin today b len ny = (do
      let n ← normal_temp_list obs today (tw1_of today) (e_of b len) ny
      pure ((forecast_temp_list fmax fmin (dateDiff b (y_of today)) 14).map some
        ++ n))) ∧
  (specCase6 today b len →
    ave_temp_segments obs fmax fmin today b len ny =
      normal_temp_list obs today b (e_of b len) ny) ∧
  ((e_of b len).toOrd = (y_of today).toOrd → specCase1 today b len) ∧
  (b.toOrd = (y_of today).toOrd + 1 ∧ (e_of b len).toOrd ≤ (tw_of today).toOrd →
    specCase4 today b len)

/-- Conclusion of claim C6: `mean_df` preserves the common shape and
computes every cell as the one-decimal-rounded mean of the non-missing
stacked entries: a cell missing in every year stays missing, and
otherwise the cell is the rounded mean of the non-missing subset. -/
def C6Prop (t0 : List (List (Option ℚ)))
    (rest : List (List (List (Option ℚ)))) : Prop :=
  (mean_df (t0 :: rest)).map List.length = t0.map List.length ∧
  ∀ i j, i < t0.length → j < (t0.getD i []).length →
    (((mean_df (t0 :: rest)).getD i []).getD j none =
      cellMean ((t0 :: rest).map fun t => (t.getD i []).getD j none)) ∧
    ((∀ t ∈ t0 :: rest, (t.getD i []).getD j none = none) →
      ((mean_df (t0 :: rest)).getD i []).getD j none = none) ∧
    (((t0 :: rest).map fun t => (t.getD i []).getD j none).filterMap id ≠ [] →
      ((mean_df (t0 :: rest)).getD i []).getD j none =
        some (round1
          ((((t0 :: rest).map fun t =>
              (t.getD i []).getD j none).filterMap id).sum /
           ((((t0 :: rest).map fun t =>
              (t.getD i []).getD j none).filterMap id).length : ℚ))))

theorem isLeap_iff (y : ℕ) :
    isLeap y = true ↔ ((y % 4 = 0 ∧ y % 100 ≠ 0) ∨ y % 400 = 0) := by
  simp [isLeap, Bool.or_eq_true, Bool.and_eq_true, beq_iff_eq, bne_iff_ne]

theorem daysInMonth_pos (y m : ℕ) : 1 ≤ daysInMonth y m := by
  unfold daysInMonth
  split_ifs <;> omega

theorem daysBeforeMonth_succ (y m : ℕ) (h1 : 1 ≤ m) (h2 : m ≤ 11) :
    daysBeforeMonth y (m + 1) = daysBeforeMonth y m + daysInMonth y m := by
  interval_cases m <;>
    cases h : isLeap y <;>
      simp [daysBeforeMonth, daysBeforeMonthBase, daysInMonth, h]

theorem leapsBefore_succ (k : ℕ) :
    leapsBefore (k + 1) = leapsBefore k + (if isLeap (k + 1) then 1 else 0) := by
  unfold leapsBefore
  split_ifs with hl
  · rw [isLeap_iff] at hl
    omega
  · rw [Bool.not_eq_true, ← Bool.not_eq_true, isLeap_iff] at hl
    push_neg at hl
    omega

theorem daysBeforeYear_succ (y : ℕ) (h : 1 ≤ y) :
    daysBeforeYear (y + 1) =
      daysBeforeYear y + 365 + (if isLeap y then 1 else 0) := by
  unfold daysBeforeYear
  obtain ⟨k, rfl⟩ : ∃ k, y = k + 1 := ⟨y - 1, by omega⟩
  have := leapsBefore_succ k
  simp only [Nat.add_sub_cancel]
  omega

theorem daysBeforeMonth_one (y : ℕ) : daysBeforeMonth y 1 = 0 := by
  simp [daysBeforeMonth, daysBeforeMonthBase]

theorem daysBeforeMonth_twelve (y : ℕ) :
    daysBeforeMonth y 12 = 334 + (if isLeap y then 1 else 0) := by
  cases hl : isLeap y <;> simp [daysBeforeMonth, daysBeforeMonthBase, hl]

theorem daysInMonth_twelve (y : ℕ) : daysInMonth y 12 = 31 := by
  simp [daysInMonth]

theorem toOrd_next (d : Date) (h : d.Valid) :
    (d.next).toOrd = d.toOrd + 1 := by
  obtain ⟨hy, hm1, hm2, hd1, hd2⟩ := h
  unfold Date.next
  split_ifs with h1 h2
  · show daysBeforeYear d.year + daysBeforeMonth d.year d.month + (d.day + 1) =
      d.toOrd + 1
    unfold Date.toOrd
    omega
  · show daysBeforeYear d.year + daysBeforeMonth d.year (d.month + 1) + 1 =
      d.toOrd + 1
    have hstep := daysBeforeMonth_succ d.year d.month hm1 (by omega)
    unfold Date.toOrd
    omega
  · show daysBeforeYear (d.year + 1) + daysBeforeMonth (d.year + 1) 1 + 1 =
      d.toOrd + 1
    have hm : d.month = 12 := by omega
    have hday : d.day = 31 := by
      have h31 := daysInMonth_twelve d.year
      rw [hm] at hd2 h1
      omega
    have hsy := daysBeforeYear_succ d.year hy
    have h0 := daysBeforeMonth_one (d.year + 1)
    have h12 := daysBeforeMonth_twelve d.year
    unfold Date.toOrd
    rw [hm, hday, h0, h12, hsy]
    split_ifs <;> omega

theorem next_valid (d : Date) (h : d.Valid) : (d.next).Valid := by
  obtain ⟨hy, hm1, hm2, hd1, hd2⟩ := h
  unfold Date.next Date.Valid
  split_ifs with h1 h2
  · dsimp only
    omega
  · have := daysInMonth_pos d.year (d.month + 1)
    dsimp only
    omega
  · have : daysInMonth (d.year + 1) 1 = 31 := by simp [daysInMonth]
    dsimp only
    omega

theorem addDays_spec (d : Date) (n : ℕ) (h : d.Valid) :
    (d.addDays n).Valid ∧ (d.addDays n).toOrd = d.toOrd + n := by
  induction n with
  | zero => exact ⟨h, rfl⟩
  | succ k ih =>
    obtain ⟨hv, ho⟩ := ih
    refine ⟨next_valid _ hv, ?_⟩
    rw [show d.addDays (k + 1) = (d.addDays k).next from rfl, toOrd_next _ hv]
    omega

theorem prev_spec (d : Date) (h : d.Valid) (hy : 2 ≤ d.year) :
    (d.prev).Valid ∧ (d.prev).toOrd + 1 = d.toOrd ∧
      d.year - 1 ≤ (d.prev).year ∧ (d.prev).year ≤ d.year := by
  obtain ⟨hy1, hm1, hm2, hd1, hd2⟩ := h
  unfold Date.prev Date.Valid Date.toOrd
  split_ifs with h1 h2
  · simp only
    omega
  · have hday : d.day = 1 := by omega
    have hm11 : d.month - 1 ≤ 11 := by omega
    have hstep := daysBeforeMonth_succ d.year (d.month - 1) (by omega) hm11
    have hms : d.month - 1 + 1 = d.month := by omega
    rw [hms] at hstep
    have := daysInMonth_pos d.year (d.month - 1)
    simp only
    omega
  · have hday : d.day = 1 := by omega
    have hmon : d.month = 1 := by omega
    have hdim := daysInMonth_twelve (d.year - 1)
    have hsy := daysBeforeYear_succ (d.year - 1) (by omega)
    have hys : d.year - 1 + 1 = d.year := by omega
    rw [hys] at hsy
    have h12 := daysBeforeMonth_twelve (d.year - 1)
    have h1 := daysBeforeMonth_one d.year
    dsimp only
    refine ⟨⟨by omega, by omega, by omega, by omega, by omega⟩, ?_, by omega, by omega⟩
    show daysBeforeYear (d.year - 1) + daysBeforeMonth (d.year - 1) 12 + 31 + 1 =
      daysBeforeYear d.year + daysBeforeMonth d.year d.month + d.day
    rw [hmon, hday, h1, h12, hsy]
    split_ifs <;> omega

theorem subDays_spec (d : Date) (n : ℕ) (h : d.Valid) (hy : n + 2 ≤ d.year) :
    (d.subDays n).Valid ∧ (d.subDays n).toOrd + n = d.toOrd ∧
      d.year - n ≤ (d.subDays n).year ∧ (d.subDays n).year ≤ d.year := by
  induction n with
  | zero => exact ⟨h, rfl, Nat.sub_le _ _, le_refl _⟩
  | succ k ih =>
    obtain ⟨hv, ho, hylo, hyhi⟩ := ih (by omega)
    have hy2 : 2 ≤ (d.subDays k).year := by omega
    obtain ⟨hv2, ho2, hylo2, hyhi2⟩ := prev_spec _ hv hy2
    refine ⟨hv2, ?_, ?_, ?_⟩ <;>
      rw [show d.subDays (k + 1) = (d.subDays k).prev from rfl] at * <;> omega

theorem boundary_ords (today b : Date) (len : ℕ) (hT : today.Valid)
    (hB : b.Valid) (hy : 3 ≤ today.year) :
    (e_of b len).toOrd = b.toOrd + (len - 1) ∧
      (y_of today).toOrd + 1 = today.toOrd ∧
      (tw_of today).toOrd = today.toOrd + 13 ∧
      (tw1_of today).toOrd = today.toOrd + 14 :=
  ⟨(addDays_spec b (len - 1) hB).2, (subDays_spec today 1 hT (by omega)).2.1,
   (addDays_spec today 13 hT).2, (addDays_spec today 14 hT).2⟩

theorem seg_case1_eq (obs : ℕ → ℕ → ℕ → Option ℚ) (fmax fmin : List ℤ)
    (today b : Date) (len ny : ℕ) (h : specCase1 today b len) :
    ave_temp_segments obs fmax fmin today b len ny =
      past_temp_list obs today b (e_of b len) := by
  unfold ave_temp_segments
  rw [if_pos h]

theorem seg_case2_eq (obs : ℕ → ℕ → ℕ → Option ℚ) (fmax fmin : List ℤ)
    (today b : Date) (len ny : ℕ) (h : specCase2 today b len) :
    ave_temp_segments obs fmax fmin today b len ny = (do
      let p ← past_temp_list obs today b (y_of today)
      pure (p ++ (forecast_temp_list fmax fmin 1
        (dateDiff (e_of b len) (y_of today))).map some)) := by
  obtain ⟨h1, h2, h3⟩ := h
  unfold ave_temp_segments
  rw [if_neg (by omega), if_pos ⟨h1, h3⟩]

theorem seg_case3_eq (obs : ℕ → ℕ → ℕ → Option ℚ) (fmax fmin : List ℤ)
    (today b : Date) (len ny : ℕ) (hT : today.Valid) (hy : 3 ≤ today.year)
    (h : specCase3 today b len) :
    ave_temp_segments obs fmax fmin today b len ny = (do
      let p ← past_temp_list obs today b (y_of today)
      let n ← normal_temp_list obs today (tw1_of today) (e_of b len) ny
      pure (p ++ (forecast_temp_list fmax fmin 1 14).map some ++ n)) := by
  obtain ⟨h1, h2⟩ := h
  have hY := (subDays_spec today 1 hT (by omega)).2.1
  have hTW := (addDays_spec today 13 hT).2
  unfold ave_temp_segments
  rw [if_neg, if_neg, if_pos ⟨h1, h2⟩]
  · rintro ⟨-, h4⟩
    omega
  · unfold y_of tw_of at *
    omega

theorem seg_case4_eq (obs : ℕ → ℕ → ℕ → Option ℚ) (fmax fmin : List ℤ)
    (today b : Date) (len ny : ℕ) (hB : b.Valid) (h : specCase4 today b len) :
    ave_temp_segments obs fmax fmin today b len ny =
      pure ((forecast_temp_list fmax fmin (dateDiff b (y_of today))
        (dateDiff (e_of b len) (y_of today))).map some) := by
  obtain ⟨h1, h2, h3⟩ := h
  have hE := (addDays_spec b (len - 1) hB).2
  unfold ave_temp_segments
  rw [if_neg, if_neg, if_neg, if_pos ⟨h1, h2, h3⟩]
  · rintro ⟨h4, -⟩
    omega
  · rintro ⟨h4, -⟩
    omega
  · show ¬ ((e_of b len).toOrd ≤ (y_of today).toOrd)
    unfold e_of
    omega

theorem seg_case5_eq (obs : ℕ → ℕ → ℕ → Option ℚ) (fmax fmin : List ℤ)
    (today b : Date) (len ny : ℕ) (hB : b.Valid) (h : specCase5 today b len) :
    ave_temp_segments obs fmax fmin today b len ny = (do
      let n ← normal_temp_list obs today (tw1_of today) (e_of b len) ny
      pure ((forecast_temp_list fmax fmin (dateDiff b (y_of today)) 14).map some
        ++ n)) := by
  obtain ⟨h1, h2, h3⟩ := h
  have hE := (addDays_spec b (len - 1) hB).2
  unfold ave_temp_segments
  rw [if_neg, if_neg, if_neg, if_neg, if_pos ⟨h1, h2, h3⟩]
  · rintro ⟨-, -, h4⟩
    omega
  · rintro ⟨h4, -⟩
    omega
  · rintro ⟨h4, -⟩
    omega
  · show ¬ ((e_of b len).toOrd ≤ (y_of today).toOrd)
    unfold e_of
    omega

theorem seg_case6_eq (obs : ℕ → ℕ → ℕ → Option ℚ) (fmax fmin : List ℤ)
    (today b : Date) (len ny : ℕ) (hT : today.Valid) (hB : b.Valid)
    (hy : 3 ≤ today.year) (h : specCase6 today b len) :
    ave_temp_segments obs fmax fmin today b len ny =
      normal_temp_list obs today b (e_of b len) ny := by
  obtain ⟨hE, hY, hTW, hTW1⟩ := boundary_ords today b len hT hB hy
  unfold ave_temp_segments
  rw [if_neg, if_neg, if_neg, if_neg, if_neg]
  · rintro ⟨-, h4, -⟩
    exact absurd h4 (by unfold specCase6 at h; omega)
  · rintro ⟨-, h4, -⟩
    exact absurd h4 (by unfold specCase6 at h; omega)
  · rintro ⟨h4, -⟩
    unfold specCase6 at h
    omega
  · rintro ⟨h4, -⟩
    unfold specCase6 at h
    omega
  · unfold specCase6 at h
    omega

/-- Claim C1: for every request window `[B, E]` with `B ≤ E` (encoded as
`E = B + (length - 1)`, `1 ≤ length`) and every fixed valid today,
`ave_temp_list`'s branch chain selects exactly one of the spec's six
mutually exclusive cases and composes the tabulated segments; in
particular `E = Y` gives case 1 and `B = Y + 1` with `E ≤ TW` gives
case 4. -/
theorem c1_ave_temp_list_six_cases (obs : ℕ → ℕ → ℕ → Option ℚ)
    (fmax fmin : List ℤ) (today b : Date) (len ny : ℕ)
    (hT : today.Valid) (hB : b.Valid) (hy : 3 ≤ today.year)
    (hlen : 1 ≤ len) :
    C1Prop obs fmax fmin today b len ny := by
  obtain ⟨hE, hY, hTW, hTW1⟩ := boundary_ords today b len hT hB hy
  unfold C1Prop
  refine ⟨?_, ?_, ?_, ?_, ?_, ?_, ?_, ?_, ?_, ?_, ?_, ?_, ?_, ?_, ?_, ?_,
    fun h => seg_case1_eq obs fmax fmin today b len ny h,
    fun h => seg_case2_eq obs fmax fmin today b len ny h,
    fun h => seg_case3_eq obs fmax fmin today b len ny hT hy h,
    fun h => seg_case4_eq obs fmax fmin today b len ny hB h,
    fun h => seg_case5_eq obs fmax fmin today b len ny hB h,
    fun h => seg_case6_eq obs fmax fmin today b len ny hT hB hy h,
    ?_, ?_⟩ <;> omega

/-- Witness for C1 at the spec's end-to-end scenario (today 2025-04-24,
window 2025-04-10 .. 2025-04-27). -/
theorem c1_ave_temp_list_six_cases_witness :
    C1Prop (fun _ _ _ => none) (List.replicate 14 20) (List.replicate 14 10)
      ⟨2025, 4, 24⟩ ⟨2025, 4, 10⟩ 18 1 :=
  c1_ave_temp_list_six_cases _ _ _ _ _ _ _
    (by decide) (by decide) (by decide) (by decide)

/-- `List.getD` after a `map`, with the default taken through the map. -/
theorem getD_map_eq {α β : Type} (f : α → β) (l : List α) (d : α) (i : ℕ) :
    (l.map f).getD i (f d) = f (l.getD i d) := by
  induction l generalizing i with
  | nil => cases i <;> rfl
  | cons a t ih => cases i with
    | zero => rfl
    | succ k => exact ih k

/-- Unfolding of `cellMean`. -/
theorem cellMean_eq (l : List (Option ℚ)) :
    cellMean l = if l.filterMap id = [] then none
      else some (round1 ((l.filterMap id).sum / ((l.filterMap id).length : ℚ))) :=
  rfl

theorem filterMap_id_replicate_none (n : ℕ) :
    (List.replicate n (none : Option ℚ)).filterMap id = [] := by
  induction n with
  | zero => rfl
  | succ k ih => simp [List.replicate_succ, ih]

theorem filterMap_id_replicate_some (n : ℕ) (q : ℚ) :
    (List.replicate n (some q)).filterMap id = List.replicate n q := by
  induction n with
  | zero => rfl
  | succ k ih => simp [List.replicate_succ, ih]

/-- Averaging `m + 1` copies of one cell returns the cell, rounded. -/
theorem cellMean_replicate (m : ℕ) (x : Option ℚ) :
    cellMean (List.replicate (m + 1) x) = x.map round1 := by
  cases x with
  | none =>
    rw [cellMean_eq, if_pos]
    · rfl
    · exact filterMap_id_replicate_none _
  | some q =>
    rw [cellMean_eq, filterMap_id_replicate_some]
    rw [if_neg (by simp)]
    have hne : ((m : ℚ) + 1) ≠ 0 := by positivity
    rw [List.sum_replicate, List.length_replicate, nsmul_eq_mul]
    rw [Nat.cast_add, Nat.cast_one, mul_div_cancel_left₀ _ hne]
    rfl

/-- `numpy` rounding at an exact half rounds to the even neighbour. -/
theorem rintQ_half (k : ℤ) :
    rintQ ((k : ℚ) + 1 / 2) = if k % 2 = 0 then k else k + 1 := by
  have hf : ⌊(k : ℚ) + 1 / 2⌋ = k := by
    rw [Int.floor_int_add]
    norm_num
  unfold rintQ
  rw [hf]
  have hsub : (k : ℚ) + 1 / 2 - (k : ℤ) = 1 / 2 := by
    push_cast
    ring
  rw [hsub]
  norm_num

/-- Claim C2 (refuted by the code, see the spec's length invariant): for
the valid one-day Daily window [2025-04-23, 2025-04-23] with today =
2025-04-24, whatever the scraped data, `date_adjust` widens the past
sub-window to two days (`b_date = b_date if b_date < e_date else e_date -
timedelta(days=1)`), so `past_temp_list` returns 2 records for the 1-day
request and `pd.Series(temp_list, index=date_list)` raises `ValueError`
instead of returning a 1-record series. -/
theorem c2_one_day_window_value_error (obs : ℕ → ℕ → ℕ → Option ℚ)
    (fmax fmin : List ℤ) :
    ave_temp_list obs fmax fmin ⟨2025, 4, 24⟩ ⟨2025, 4, 23⟩ 1 1 =
      .error "ValueError: length of values does not match length of index" ∧
    (past_temp_list obs ⟨2025, 4, 24⟩ ⟨2025, 4, 23⟩ ⟨2025, 4, 23⟩).map
        List.length = .ok 2 := ⟨rfl, rfl⟩

/-- Counterexample to claim C3: with 14 scraped forecast pairs available,
requesting lead days 1..15 (upper bound past the horizon) does not fail;
`ftl[b_day-1:e_day]` silently returns the 14 available entries, fewer
than `e_day - b_day + 1 = 15`. -/
theorem c3_forecast_truncates_counterexample :
    (forecast_temp_list (List.replicate 14 20) (List.replicate 14 10)
        1 15).length = 14 ∧ 14 < 15 - 1 + 1 := ⟨rfl, by decide⟩

/-- Claim C3 as amended: `forecast_temp_list` never raises on an
out-of-horizon bound; it returns the Python slice `ftl[b_day-1:e_day]`,
whose length is `min (e_day - (b_day - 1)) (N - (b_day - 1))` for `N`
available (max, min) pairs — silently shorter than requested whenever
`e_day` exceeds the horizon. -/
theorem c3_forecast_truncation_length (fmax fmin : List ℤ) (b e : ℤ) :
    (forecast_temp_list fmax fmin b e).length =
      min ((e - (b - 1)).toNat) (min fmax.length fmin.length - (b - 1).toNat) := by
  unfold forecast_temp_list
  simp [List.length_take, List.length_drop, List.length_zip, List.length_map]

/-- Claim C4: cleaning is total — `clean_df` is a total function that
preserves the table's shape and maps each cell through the `clean_df`
pipeline: `"//"` and `"#"` to missing, `"--"` to exactly 0.0, annotated
numbers to their stripped numeric value, unparsable text to missing. -/
theorem c4_clean_df_total (df : List (List Cell)) :
    (clean_df df).length = df.length ∧
    (∀ i, ((clean_df df).getD i []).length = (df.getD i []).length) ∧
    (∀ i j, ((clean_df df).getD i []).getD j none =
      clean_cell ((df.getD i []).getD j Cell.slashes)) ∧
    clean_cell .slashes = none ∧ clean_cell .hash = none ∧
    clean_cell .dashes = some 0 ∧ (∀ q, clean_cell (.annotated q) = some q) ∧
    (∀ q, clean_cell (.num q) = some q) ∧ clean_cell .text = none := by
  refine ⟨by simp [clean_df], ?_, ?_, rfl, rfl, rfl, fun q => rfl, fun q => rfl,
    rfl⟩
  · intro i
    show ((df.map (fun (row : List Cell) => row.map clean_cell)).getD i
        ((fun (row : List Cell) => row.map clean_cell) [])).length =
      (df.getD i []).length
    rw [getD_map_eq]
    simp
  · intro i j
    show ((df.map (fun (row : List Cell) => row.map clean_cell)).getD i
        ((fun (row : List Cell) => row.map clean_cell) [])).getD j
        (clean_cell Cell.slashes) =
      clean_cell ((df.getD i []).getD j Cell.slashes)
    rw [getD_map_eq]
    show ((df.getD i []).map clean_cell).getD j (clean_cell Cell.slashes) = _
    rw [getD_map_eq]

/-- Claim C5: `hanjun` maps day-of-month `d` (1..31) to pentad
`(d-1)/5 + 1` for `d ≤ 30` and to the fixed terminal bucket 6 for
`d = 31`, with the tabulated values at 1, 5, 6, 25, 30, 31. -/
theorem c5_hanjun_pentads (d : ℕ) (h1 : 1 ≤ d) (h2 : d ≤ 31) :
    (d ≤ 30 → hanjun d = (d - 1) / 5 + 1) ∧ (31 ≤ d → hanjun d = 6) ∧
    hanjun 1 = 1 ∧ hanjun 5 = 1 ∧ hanjun 6 = 2 ∧ hanjun 25 = 5 ∧
    hanjun 30 = 6 ∧ hanjun 31 = 6 := by
  refine ⟨fun h => ?_, fun h => ?_, by decide, by decide, by decide, by decide,
    by decide, by decide⟩
  · unfold hanjun
    rw [if_pos h]
  · unfold hanjun
    rw [if_neg (by omega)]

/-- Witness for C5 at `d = 6`. -/
theorem c5_hanjun_pentads_witness :
    (6 ≤ 30 → hanjun 6 = (6 - 1) / 5 + 1) ∧ (31 ≤ 6 → hanjun 6 = 6) ∧
    hanjun 1 = 1 ∧ hanjun 5 = 1 ∧ hanjun 6 = 2 ∧ hanjun 25 = 5 ∧
    hanjun 30 = 6 ∧ hanjun 31 = 6 :=
  c5_hanjun_pentads 6 (by decide) (by decide)

/-- Claim C6: for every non-empty list of same-shaped year tables,
`mean_df` produces a same-shaped table whose cells are the one-decimal
rounded means over the non-missing entries, with all-missing cells
staying missing. -/
theorem c6_mean_df_cellwise (t0 : List (List (Option ℚ)))
    (rest : List (List (List (Option ℚ))))
    (hsh : ∀ t ∈ t0 :: rest, t.map List.length = t0.map List.length) :
    C6Prop t0 rest := by
  have hbody : mean_df (t0 :: rest) =
      (List.range t0.length).map (fun i =>
        (List.range ((t0.getD i []).length)).map fun j =>
          cellMean ((t0 :: rest).map fun t => (t.getD i []).getD j none)) := rfl
  have hrow : ∀ i, i < t0.length →
      (mean_df (t0 :: rest)).getD i [] =
        (List.range ((t0.getD i []).length)).map (fun j =>
          cellMean ((t0 :: rest).map fun t => (t.getD i []).getD j none)) := by
    intro i hi
    rw [hbody, List.getD_eq_getElem _ _ (by simpa using hi)]
    simp only [List.getElem_map, List.getElem_range]
  have hcell : ∀ i j, i < t0.length → j < (t0.getD i []).length →
      ((mean_df (t0 :: rest)).getD i []).getD j none =
        cellMean ((t0 :: rest).map fun t => (t.getD i []).getD j none) := by
    intro i j hi hj
    rw [hrow i hi, List.getD_eq_getElem _ _ (by simpa using hj)]
    simp only [List.getElem_map, List.getElem_range]
  unfold C6Prop
  refine ⟨?_, fun i j hi hj => ⟨hcell i j hi hj, ?_, ?_⟩⟩
  · rw [hbody]
    apply List.ext_getElem
    · simp
    · intro i h1 h2
      simp only [List.getElem_map, List.getElem_range, List.length_map,
        List.length_range]
      rw [List.getD_eq_getElem _ _ (by simpa using h2)]
  · intro hall
    rw [hcell i j hi hj, cellMean_eq, if_pos]
    rw [List.filterMap_eq_nil_iff]
    intro a ha
    obtain ⟨t, ht, rfl⟩ := List.mem_map.mp ha
    exact hall t ht
  · intro hne
    rw [hcell i j hi hj, cellMean_eq, if_neg hne]

/-- Witness for C6 on two concrete 2-row year tables with mixed missing
cells. -/
theorem c6_mean_df_cellwise_witness :
    C6Prop [[some (1/2 : ℚ), none], [none]]
      [[[none, some (3/2 : ℚ)], [some 1]]] :=
  c6_mean_df_cellwise _ _ (by decide)

/-- Counterexample to claim C7: the averager's rounding IS numpy's
round-half-to-even. A cell mean of exactly 0.25 rounds to 0.2 (the even
tenth), not to the round-half-away value 0.3, contradicting the claim
that the fixed policy is not banker's rounding. -/
theorem c7_round_half_even_counterexample :
    mean_df [[[some (1 / 4 : ℚ)]]] = [[some (1 / 5 : ℚ)]] ∧
      (1 / 5 : ℚ) ≠ 3 / 10 := by
  constructor
  · have h1 : mean_df [[[some (1 / 4 : ℚ)]]] =
        [[some (round1 ((1 / 4 + 0 : ℚ) / ((1 : ℕ) : ℚ)))]] := rfl
    rw [h1]
    have h2 : ((1 / 4 + 0 : ℚ)) / ((1 : ℕ) : ℚ) = 1 / 4 := by norm_num
    rw [h2]
    unfold round1 rintQ
    norm_num
  · norm_num

/-- Claim C7 as amended: every averaged cell is rounded to one decimal
with numpy's round-half-to-even policy — a mean lying exactly halfway
between two one-decimal candidates, `(2k+1)/20`, rounds to the even
tenth (`k/10` for even `k`, `(k+1)/10` for odd `k`). -/
theorem c7_round_half_to_even_policy (k : ℤ) :
    mean_df [[[some ((2 * k + 1 : ℚ) / 20)]]] =
      [[some ((if k % 2 = 0 then (k : ℚ) else (k : ℚ) + 1) / 10)]] := by
  have h1 : mean_df [[[some ((2 * k + 1 : ℚ) / 20)]]] =
      [[some (round1 (((2 * k + 1 : ℚ) / 20 + 0) / ((1 : ℕ) : ℚ)))]] := rfl
  rw [h1]
  have h2 : ((2 * k + 1 : ℚ) / 20 + 0) / ((1 : ℕ) : ℚ) =
      (2 * k + 1 : ℚ) / 20 := by
    norm_num
  rw [h2]
  unfold round1
  have h3 : (10 : ℚ) * ((2 * k + 1) / 20) = (k : ℚ) + 1 / 2 := by
    ring
  rw [h3, rintQ_half]
  split_ifs <;> push_cast <;> ring

/-- Claim C8: averaging `n ≥ 1` identical copies of a table yields the
table itself up to one-decimal rounding, independent of `n`. -/
theorem c8_mean_df_idempotent_on_copies (t : List (List (Option ℚ)))
    (n : ℕ) (h : 1 ≤ n) :
    mean_df (List.replicate n t) =
      t.map fun row => row.map fun c => c.map round1 := by
  obtain ⟨m, rfl⟩ : ∃ m, n = m + 1 := ⟨n - 1, by omega⟩
  have hbody : mean_df (List.replicate (m + 1) t) =
      (List.range t.length).map (fun i =>
        (List.range ((t.getD i []).length)).map fun j =>
          cellMean ((List.replicate (m + 1) t).map fun tt =>
            (tt.getD i []).getD j none)) := by
    rw [List.replicate_succ]
    rfl
  rw [hbody]
  apply List.ext_getElem
  · simp
  · intro i h1 h2
    have hi : i < t.length := by simpa using h2
    have hrow : t.getD i [] = t[i] := List.getD_eq_getElem _ _ hi
    simp only [List.getElem_map, List.getElem_range]
    apply List.ext_getElem
    · simp only [List.length_map, List.length_range]
      rw [hrow]
    · intro j h3 h4
      have hj : j < t[i].length := by simpa using h4
      have hcell2 : (t.getD i []).getD j none = t[i][j] := by
        rw [hrow]
        exact List.getD_eq_getElem _ _ hj
      simp only [List.getElem_map, List.getElem_range]
      rw [List.map_replicate, cellMean_replicate, hcell2]

/-- Witness for C8: three copies of a concrete table. -/
theorem c8_mean_df_idempotent_on_copies_witness :
    mean_df (List.replicate 3 [[some (1/2 : ℚ), none], [some (7/3 : ℚ)]]) =
      [[some (1/2 : ℚ), none], [some (7/3 : ℚ)]].map fun row =>
        row.map fun c => c.map round1 :=
  c8_mean_df_idempotent_on_copies _ 3 (by decide)

/-- Claim C9: `date_adjust` always returns a window with begin ≤ end, and
an input window longer than 367 days is clamped (not rejected): the
returned span never exceeds 367 days, in both the daily and the pentad
branch. -/
theorem c9_date_adjust_clamps (today b e : Date) (is_daily : Bool)
    (hT : today.Valid) (hB : b.Valid) (hE : e.Valid)
    (hty : 10 ≤ today.year) (hey : 10 ≤ e.year) :
    (date_adjust today b e is_daily).1.toOrd ≤
      (date_adjust today b e is_daily).2.toOrd ∧
    (367 < (e.toOrd : ℤ) - (b.toOrd : ℤ) →
      ((date_adjust today b e is_daily).2.toOrd : ℤ) -
        ((date_adjust today b e is_daily).1.toOrd : ℤ) ≤ 367) := by
  have hT1 := subDays_spec today 1 hT (by omega)
  have he1 : (da_e1 today e).Valid ∧ 9 ≤ (da_e1 today e).year ∧
      ((e.toOrd < today.toOrd ∧ (da_e1 today e).toOrd = e.toOrd) ∨
       (¬ e.toOrd < today.toOrd ∧ (da_e1 today e).toOrd + 1 = today.toOrd)) := by
    unfold da_e1
    split_ifs with hc
    · exact ⟨hE, by omega, Or.inl ⟨hc, rfl⟩⟩
    · exact ⟨hT1.1, by omega, Or.inr ⟨hc, hT1.2.1⟩⟩
  have hb1 : (da_b1 today b e).Valid ∧
      ((b.toOrd < (da_e1 today e).toOrd ∧ (da_b1 today b e).toOrd = b.toOrd) ∨
       (¬ b.toOrd < (da_e1 today e).toOrd ∧
         (da_b1 today b e).toOrd + 1 = (da_e1 today e).toOrd)) := by
    unfold da_b1
    split_ifs with hc
    · exact ⟨hB, Or.inl ⟨hc, rfl⟩⟩
    · have hs := subDays_spec (da_e1 today e) 1 he1.1 (by omega)
      exact ⟨hs.1, Or.inr ⟨hc, hs.2.1⟩⟩
  have he2 : (da_e2 today b e).Valid ∧
      ((((da_e1 today e).toOrd : ℤ) - ((da_b1 today b e).toOrd : ℤ) < 367 ∧
        (da_e2 today b e).toOrd = (da_e1 today e).toOrd) ∨
       (¬ (((da_e1 today e).toOrd : ℤ) - ((da_b1 today b e).toOrd : ℤ) < 367) ∧
        (da_e2 today b e).toOrd = (da_b1 today b e).toOrd + 364)) := by
    unfold da_e2
    split_ifs with hc
    · exact ⟨he1.1, Or.inl ⟨hc, rfl⟩⟩
    · have hs := addDays_spec (da_b1 today b e) 364 hb1.1
      exact ⟨hs.1, Or.inr ⟨hc, hs.2⟩⟩
  have hdd : 1 ≤ da_ddays today ∧ da_ddays today ≤ 5 := by
    unfold da_ddays
    split_ifs with hc
    · omega
    · omega
  have he3 := subDays_spec today (da_ddays today) hT (by omega)
  have he3v : (da_e3 today).Valid := he3.1
  have he3o : (da_e3 today).toOrd + da_ddays today = today.toOrd := he3.2.1
  have he3y : today.year - da_ddays today ≤ (da_e3 today).year := he3.2.2.1
  have hb2 : ((da_b1 today b e).toOrd < (da_e3 today).toOrd ∧
        (da_b2 today b e).toOrd = (da_b1 today b e).toOrd) ∨
      (¬ (da_b1 today b e).toOrd < (da_e3 today).toOrd ∧
        (da_b2 today b e).toOrd + 1 = (da_e3 today).toOrd) := by
    unfold da_b2
    split_ifs with hc
    · exact Or.inl ⟨hc, rfl⟩
    · have hy3 : 1 + 2 ≤ (da_e3 today).year := by omega
      have hs := subDays_spec (da_e3 today) 1 he3v hy3
      exact Or.inr ⟨hc, hs.2.1⟩
  unfold date_adjust
  split_ifs with hmain
  · dsimp only
    obtain ⟨-, -, he1o⟩ := he1
    obtain ⟨-, hb1o⟩ := hb1
    obtain ⟨-, he2o⟩ := he2
    obtain ⟨hm1, hm2⟩ := hmain
    constructor
    · omega
    · intro hspan
      omega
  · dsimp only
    obtain ⟨-, -, he1o⟩ := he1
    obtain ⟨-, hb1o⟩ := hb1
    obtain ⟨-, he2o⟩ := he2
    constructor
    · omega
    · intro hspan
      omega

/-- Witness for C9: a 475-day window [2024-01-01, 2025-04-20] with today
= 2025-04-24 at daily granularity. -/
theorem c9_date_adjust_clamps_witness :
    (date_adjust ⟨2025, 4, 24⟩ ⟨2024, 1, 1⟩ ⟨2025, 4, 20⟩ true).1.toOrd ≤
      (date_adjust ⟨2025, 4, 24⟩ ⟨2024, 1, 1⟩ ⟨2025, 4, 20⟩ true).2.toOrd ∧
    (367 < ((⟨2025, 4, 20⟩ : Date).toOrd : ℤ) -
        ((⟨2024, 1, 1⟩ : Date).toOrd : ℤ) →
      ((date_adjust ⟨2025, 4, 24⟩ ⟨2024, 1, 1⟩ ⟨2025, 4, 20⟩ true).2.toOrd : ℤ) -
        ((date_adjust ⟨2025, 4, 24⟩ ⟨2024, 1, 1⟩ ⟨2025, 4, 20⟩
          true).1.toOrd : ℤ) ≤ 367) :=
  c9_date_adjust_clamps _ _ _ _ (by decide) (by decide) (by decide)
    (by decide) (by decide)

theorem not_isLeap_sub_one (y : ℕ) (h1 : 1 ≤ y) (h2 : isLeap y = true) :
    isLeap (y - 1) = false := by
  rw [isLeap_iff] at h2
  rw [← Bool.not_eq_true, isLeap_iff]
  omega

/-- Shifting a (valid) February 29 back one year hits an invalid date:
the preceding year is never a leap year. -/
theorem mkDate_feb29_error (x : Date) (hv : x.Valid) (hf : isFeb29 x) :
    mkDate (x.year - 1) x.month x.day =
      .error "ValueError: day is out of range for month" := by
  obtain ⟨hm, hd⟩ := hf
  have hleap : isLeap x.year = true := by
    have hd2 := hv.2.2.2.2
    rw [hm, hd] at hd2
    by_contra hfalse
    rw [Bool.not_eq_true] at hfalse
    simp [daysInMonth, hfalse] at hd2
  have hnl := not_isLeap_sub_one x.year hv.1 hleap
  unfold mkDate
  rw [if_neg]
  intro hvalid
  unfold Date.Valid at hvalid
  have h5 := hvalid.2.2.2.2
  dsimp only at h5
  rw [hm, hd] at h5
  simp [daysInMonth, hnl] at h5

theorem isOkE_bind {α β : Type} (x : Except String α) (f : α → Except String β)
    (h : ∀ a, isOkE (f a) = false) : isOkE (x >>= f) = false := by
  cases x with
  | error m => rfl
  | ok a => exact h a

theorem isOkE_bind_of_err {α β : Type} (x : Except String α)
    (f : α → Except String β) (h : isOkE x = false) :
    isOkE (x >>= f) = false := by
  cases x with
  | error m => rfl
  | ok a => simp [isOkE] at h

/-- `normal_temp_list` raises when either window bound is a (valid, hence
leap-year) February 29: `date(year - 1, month, day)` fails. -/
theorem normal_temp_list_feb29 (obs : ℕ → ℕ → ℕ → Option ℚ)
    (today b e : Date) (ny : ℕ)
    (h : (b.Valid ∧ isFeb29 b) ∨ (e.Valid ∧ isFeb29 e)) :
    isOkE (normal_temp_list obs today b e ny) = false := by
  unfold normal_temp_list
  rcases h with ⟨hv, hf⟩ | ⟨hv, hf⟩
  · rw [mkDate_feb29_error b hv hf]
    rfl
  · cases hmb : mkDate (b.year - 1) b.month b.day with
    | error m => rfl
    | ok bb =>
      rw [mkDate_feb29_error e hv hf]
      rfl

/-- Claim C10: whenever the composition reaches case 3, 5 or 6 and the
normal segment's begin (`TW1` in cases 3/5, `B` in case 6) or end (`E`)
falls on a leap-year February 29, `normal_temp_list`'s one-year shift
raises, so `ave_temp_list` fails instead of returning a series. -/
theorem c10_feb29_normal_segment_fails (obs : ℕ → ℕ → ℕ → Option ℚ)
    (fmax fmin : List ℤ) (today b : Date) (len ny : ℕ)
    (hT : today.Valid) (hB : b.Valid) (hy : 3 ≤ today.year)
    (h : ((specCase3 today b len ∨ specCase5 today b len) ∧
        (isFeb29 (tw1_of today) ∨ isFeb29 (e_of b len))) ∨
      (specCase6 today b len ∧ (isFeb29 b ∨ isFeb29 (e_of b len)))) :
    isOkE (ave_temp_list obs fmax fmin today b len ny) = false := by
  have htw1v : (tw1_of today).Valid := (addDays_spec today 14 hT).1
  have hev : (e_of b len).Valid := (addDays_spec b (len - 1) hB).1
  have hseg : isOkE (ave_temp_segments obs fmax fmin today b len ny) = false := by
    rcases h with ⟨hc35, hfeb⟩ | ⟨hc6, hfeb⟩
    · have hnormal : isOkE (normal_temp_list obs today (tw1_of today)
          (e_of b len) ny) = false := by
        apply normal_temp_list_feb29
        rcases hfeb with hf | hf
        · exact Or.inl ⟨htw1v, hf⟩
        · exact Or.inr ⟨hev, hf⟩
      rcases hc35 with hc3 | hc5
      · rw [seg_case3_eq obs fmax fmin today b len ny hT hy hc3]
        exact isOkE_bind _ _ fun p => isOkE_bind_of_err _ _ hnormal
      · rw [seg_case5_eq obs fmax fmin today b len ny hB hc5]
        exact isOkE_bind_of_err _ _ hnormal
    · have hnormal : isOkE (normal_temp_list obs today b (e_of b len) ny)
          = false := by
        apply normal_temp_list_feb29
        rcases hfeb with hf | hf
        · exact Or.inl ⟨hB, hf⟩
        · exact Or.inr ⟨hev, hf⟩
      rw [seg_case6_eq obs fmax fmin today b len ny hT hB hy hc6]
      exact hnormal
  unfold ave_temp_list
  exact isOkE_bind_of_err _ _ hseg

/-- Witness for C10: today = 2024-02-15, window beginning 2024-02-29
(case 6, normal segment), any oracle data. -/
theorem c10_feb29_normal_segment_fails_witness :
    isOkE (ave_temp_list (fun _ _ _ => none) [] [] ⟨2024, 2, 15⟩
      ⟨2024, 2, 29⟩ 3 1) = false :=
  c10_feb29_normal_segment_fails _ _ _ _ _ _ _ (by decide) (by decide)
    (by decide) (Or.inr ⟨by decide, Or.inl (by decide)⟩)
